import Mathlib

/-!
Verification of the kai-backend ledger core against its specification.

The definitions below are a shallow embedding of the JavaScript source:

* src/models/Account.js        — Account, canTransact, credit, debit, freeze,
                                 unfreeze, the status virtual;
* src/controllers/transactionController.js — transferMoney;
* src/unnamed/part_004 (Transaction model)  — TxRecord, complete, fail;
* src/models/FixedDeposit.js   — calculateMaturityAmount;
* src/unnamed/part_005 (RecurringDeposit model) — processInstallment,
                                 processMaturity.

Modelling conventions:
* JavaScript numbers are modelled as exact rationals.  All arithmetic the
  claims mention (+, -, *, Math.min, Math.floor, Math.round, Math.pow with a
  natural exponent) is exact on the inputs involved; Math.round is
  floor (x + 1/2) on rationals, which is Mathlib's round.
* Mongoose persistence: a document mutation followed by save() is modelled as
  a pure state update.  Where a MongoDB session transaction is involved
  (transferMoney) the model's result is the COMMITTED state: writes made with
  the session (the transaction record saved with the session, and saves of the
  from-account, which was fetched with .session(session) — mongoose documents
  remember their session and reuse it for save()) are discarded by
  session.abortTransaction() and applied by commitTransaction(); writes made
  without the session (the to-account, fetched by findByAccountNumber) commit
  immediately.
* Dates: Account.canTransact only compares timestamps at calendar-day and
  calendar-month granularity (lastTransactionReset < new Date(y, m, d) holds
  exactly when the stored timestamp's calendar day precedes now's calendar
  day, and similarly for months), so dates for the Account component are
  modelled as (year, month, day) triples.  The RecurringDeposit component
  compares and subtracts raw timestamps, so its dates are modelled as rational
  timestamps measured in days (JS measures in milliseconds and divides by
  86400000; the unit change is a bijection preserving order, difference and
  the floor of a difference in days).
-/

namespace KaiBackend

/-- A calendar date at day granularity, standing for a JS Date.  Only the
calendar day and month orderings are used by the Account component. -/
structure SimpleDate where
  year : Int
  month : Int
  day : Int
deriving DecidableEq

/-- The comparison lastTransactionReset < new Date(Y, M, D) of Account.js line
181: the stored timestamp lies on an earlier calendar day than now. -/
def dayBefore (a b : SimpleDate) : Bool :=
  decide (a.year < b.year ∨ (a.year = b.year ∧
    (a.month < b.month ∨ (a.month = b.month ∧ a.day < b.day))))

/-- The comparison lastMonthlyReset < new Date(Y, M, 1) of Account.js line 187:
the stored timestamp lies in an earlier calendar month than now. -/
def monthBefore (a b : SimpleDate) : Bool :=
  decide (a.year < b.year ∨ (a.year = b.year ∧ a.month < b.month))

/-- Account.js accountType enum. -/
inductive AccountType
  | savings
  | current
deriving DecidableEq

/-- Account.js freezeReason enum. -/
inductive FreezeReason
  | none
  | suspicious_activity
  | customer_request
  | admin_action
  | legal_hold
deriving DecidableEq

/-- The Account document fields used by the ledger operations
(src/models/Account.js schema). -/
structure Account where
  accountNumber : String
  accountType : AccountType
  balance : ℚ
  minimumBalance : ℚ
  overdraftLimit : ℚ
  isActive : Bool
  freezeReason : FreezeReason
  dailyTransactionLimit : ℚ
  monthlyTransactionLimit : ℚ
  todayTransactionAmount : ℚ
  monthTransactionAmount : ℚ
  lastTransactionReset : SimpleDate
  lastMonthlyReset : SimpleDate
deriving DecidableEq

/-- The result object of canTransact: { allowed, reason }. -/
structure CanTransactResult where
  allowed : Bool
  reason : Option String
deriving DecidableEq

/-- Account.js lines 180 to 190: inside canTransact, reset the daily counter if
it is a new day and the monthly counter if it is a new month (a side effect on
the document performed even by this read-only check). -/
def Account.applyLimitResets (a : Account) (now : SimpleDate) : Account :=
  let a1 := if dayBefore a.lastTransactionReset now then
    { a with todayTransactionAmount := 0, lastTransactionReset := now } else a
  if monthBefore a1.lastMonthlyReset now then
    { a1 with monthTransactionAmount := 0, lastMonthlyReset := now } else a1

/-- Account.js lines 192 to 228: the checks of canTransact after the lazy
resets, in source order (daily limit, monthly limit, type-specific balance
floor), returning the first violated reason. -/
def Account.transactDecision (a : Account) (amount : ℚ) : CanTransactResult :=
  if a.todayTransactionAmount + amount > a.dailyTransactionLimit then
    { allowed := false, reason := some "Daily transaction limit exceeded" }
  else if a.monthTransactionAmount + amount > a.monthlyTransactionLimit then
    { allowed := false, reason := some "Monthly transaction limit exceeded" }
  else
    match a.accountType with
    | .savings =>
      if a.balance - amount < a.minimumBalance then
        { allowed := false,
          reason := some "Insufficient balance. Minimum balance requirement not met" }
      else { allowed := true, reason := none }
    | .current =>
      if a.balance - amount < -a.overdraftLimit then
        { allowed := false, reason := some "Overdraft limit exceeded" }
      else { allowed := true, reason := none }

/-- Account.js lines 175 to 229, canTransact(amount): lazy counter resets, then
the ordered limit and balance-floor checks.  Returns the decision together
with the (possibly reset) document state. -/
def Account.canTransact (a : Account) (now : SimpleDate) (amount : ℚ) :
    CanTransactResult × Account :=
  let a1 := a.applyLimitResets now
  (a1.transactDecision amount, a1)

/-- Account.js lines 232 to 236, updateTransactionAmounts(amount): advance both
limit counters after a successful debit. -/
def Account.updateTransactionAmounts (a : Account) (amount : ℚ) : Account :=
  { a with todayTransactionAmount := a.todayTransactionAmount + amount,
           monthTransactionAmount := a.monthTransactionAmount + amount }

/-- Account.js lines 239 to 252, credit(amount): throws on a non-positive
amount, otherwise increases the balance and persists. -/
def Account.credit (a : Account) (amount : ℚ) : Except String (Account × ℚ) :=
  if amount ≤ 0 then Except.error "Credit amount must be positive"
  else
    let a1 := { a with balance := a.balance + amount }
    Except.ok (a1, a1.balance)

/-- Account.js lines 255 to 274, debit(amount): throws on a non-positive
amount, re-runs canTransact and throws its reason on denial; on success
decreases the balance, advances the limit counters and persists. -/
def Account.debit (a : Account) (now : SimpleDate) (amount : ℚ) :
    Except String (Account × ℚ) :=
  if amount ≤ 0 then Except.error "Debit amount must be positive"
  else
    let ct := a.canTransact now amount
    if ct.1.allowed then
      let a1 := { ct.2 with balance := ct.2.balance - amount }
      let a2 := a1.updateTransactionAmounts amount
      Except.ok (a2, a2.balance)
    else Except.error (ct.1.reason.getD "")

/-- Account.js lines 277 to 281, freeze(reason). -/
def Account.freeze (a : Account) (reason : FreezeReason) : Account :=
  { a with freezeReason := reason, isActive := false }

/-- Account.js lines 284 to 288, unfreeze(). -/
def Account.unfreeze (a : Account) : Account :=
  { a with freezeReason := FreezeReason.none, isActive := true }

/-- The derived account status of the status virtual. -/
inductive AccountStatus
  | active
  | frozen
  | inactive
deriving DecidableEq

/-- Account.js lines 132 to 136, the status virtual: inactive if not active,
frozen if freezeReason is not none, else active. -/
def Account.status (a : Account) : AccountStatus :=
  if !a.isActive then .inactive
  else if a.freezeReason ≠ FreezeReason.none then .frozen
  else .active

/-! Helper lemmas about the reset step. -/

theorem dayBefore_self (d : SimpleDate) : dayBefore d d = false := by
  simp [dayBefore]

theorem monthBefore_self (d : SimpleDate) : monthBefore d d = false := by
  simp [monthBefore]

theorem applyLimitResets_balance (a : Account) (now : SimpleDate) :
    (a.applyLimitResets now).balance = a.balance := by
  simp only [Account.applyLimitResets]
  split <;> split <;> rfl

theorem applyLimitResets_accountType (a : Account) (now : SimpleDate) :
    (a.applyLimitResets now).accountType = a.accountType := by
  simp only [Account.applyLimitResets]
  split <;> split <;> rfl

theorem applyLimitResets_minimumBalance (a : Account) (now : SimpleDate) :
    (a.applyLimitResets now).minimumBalance = a.minimumBalance := by
  simp only [Account.applyLimitResets]
  split <;> split <;> rfl

theorem applyLimitResets_overdraftLimit (a : Account) (now : SimpleDate) :
    (a.applyLimitResets now).overdraftLimit = a.overdraftLimit := by
  simp only [Account.applyLimitResets]
  split <;> split <;> rfl

/-- Running the lazy resets twice with the same clock changes nothing the
second time: a fired reset stamps now, and dayBefore now now is false. -/
theorem applyLimitResets_idem (a : Account) (now : SimpleDate) :
    (a.applyLimitResets now).applyLimitResets now = a.applyLimitResets now := by
  unfold Account.applyLimitResets
  by_cases hd : dayBefore a.lastTransactionReset now = true <;>
    by_cases hm : monthBefore a.lastMonthlyReset now = true <;>
      simp [hd, hm, dayBefore_self, monthBefore_self]

/-! Claim C4: characterisation of canTransact, stated from the claim's words. -/

/-- The reset step claim C4 describes: reset todayTransactionAmount to zero
(updating lastTransactionReset) when the current calendar day is later than
the stored reset day, and monthTransactionAmount similarly on month
rollover. -/
def resetClaimed (a : Account) (now : SimpleDate) : Account :=
  let a1 := if dayBefore a.lastTransactionReset now then
    { a with todayTransactionAmount := 0, lastTransactionReset := now } else a
  if monthBefore a1.lastMonthlyReset now then
    { a1 with monthTransactionAmount := 0, lastMonthlyReset := now } else a1

/-- The decision claim C4 describes: check, in order, todayTransactionAmount
plus amount within the daily limit, monthTransactionAmount plus amount within
the monthly limit, and the type-specific balance floor (balance minus amount
at least minimumBalance for savings, at least minus overdraftLimit for
current), returning allowed=false with the first violated reason only, and
allowed=true when all checks pass. -/
def decisionClaimed (a : Account) (amount : ℚ) : CanTransactResult :=
  if ¬ (a.todayTransactionAmount + amount ≤ a.dailyTransactionLimit) then
    { allowed := false, reason := some "Daily transaction limit exceeded" }
  else if ¬ (a.monthTransactionAmount + amount ≤ a.monthlyTransactionLimit) then
    { allowed := false, reason := some "Monthly transaction limit exceeded" }
  else
    match a.accountType with
    | .savings =>
      if ¬ (a.minimumBalance ≤ a.balance - amount) then
        { allowed := false,
          reason := some "Insufficient balance. Minimum balance requirement not met" }
      else { allowed := true, reason := none }
    | .current =>
      if ¬ (-a.overdraftLimit ≤ a.balance - amount) then
        { allowed := false, reason := some "Overdraft limit exceeded" }
      else { allowed := true, reason := none }

/-- The behaviour claim C4 ascribes to canTransact, written from the claim's
own wording: the reset side effect first, then the ordered checks, with the
updated account state returned alongside the decision. -/
def canTransactClaimed (a : Account) (now : SimpleDate) (amount : ℚ) :
    CanTransactResult × Account :=
  let a2 := resetClaimed a now
  (decisionClaimed a2 amount, a2)

theorem resetClaimed_eq (a : Account) (now : SimpleDate) :
    resetClaimed a now = a.applyLimitResets now := rfl

theorem transactDecision_eq_claimed (x : Account) (amount : ℚ) :
    x.transactDecision amount = decisionClaimed x amount := by
  unfold Account.transactDecision decisionClaimed
  simp only [not_le]

/-- C4: canTransact(amount) first resets todayTransactionAmount to zero
(updating lastTransactionReset) when the current calendar day is later than
the stored reset day, and monthTransactionAmount similarly on month rollover —
a side effect performed even on this read-only check, visible in the returned
account state; it then checks, in order, the daily limit, the monthly limit
and the type-specific balance floor, returning allowed=false with the first
violated reason only and allowed=true when all pass.  The source operation
equals this claimed behaviour on every input. -/
theorem claim_C4_canTransact_characterisation (a : Account) (now : SimpleDate)
    (amount : ℚ) :
    a.canTransact now amount = canTransactClaimed a now amount := by
  show ((a.applyLimitResets now).transactDecision amount, a.applyLimitResets now)
    = (decisionClaimed (resetClaimed a now) amount, resetClaimed a now)
  rw [resetClaimed_eq, transactDecision_eq_claimed]

/-! Claim C10: freeze and unfreeze. -/

/-- C10: freeze(reason) sets freezeReason to the given reason and also sets
isActive to false, so the status virtual reports inactive (never frozen) after
any freeze; unfreeze() sets freezeReason to none and isActive to true, so a
single unfreeze call reactivates the account regardless of why it was
deactivated. -/
theorem claim_C10_freeze_unfreeze (a : Account) (r : FreezeReason) :
    (a.freeze r).freezeReason = r ∧ (a.freeze r).isActive = false ∧
    (a.freeze r).status = AccountStatus.inactive ∧
    a.unfreeze.freezeReason = FreezeReason.none ∧
    a.unfreeze.isActive = true ∧
    a.unfreeze.status = AccountStatus.active := by
  refine ⟨rfl, rfl, ?_, rfl, rfl, ?_⟩ <;> simp [Account.status, Account.freeze,
    Account.unfreeze]

/-! Claim C9: canTransact, debit and credit never read freezeReason or
isActive. -/

theorem applyLimitResets_set_freeze (a : Account) (now : SimpleDate)
    (r : FreezeReason) (b : Bool) :
    ({ a with freezeReason := r, isActive := b } : Account).applyLimitResets now
      = { a.applyLimitResets now with freezeReason := r, isActive := b } := by
  simp only [Account.applyLimitResets]
  split <;> split <;> rfl

theorem transactDecision_set_freeze (a : Account) (amount : ℚ)
    (r : FreezeReason) (b : Bool) :
    ({ a with freezeReason := r, isActive := b } : Account).transactDecision amount
      = a.transactDecision amount := rfl

theorem canTransact_set_freeze (a : Account) (now : SimpleDate) (amount : ℚ)
    (r : FreezeReason) (b : Bool) :
    ({ a with freezeReason := r, isActive := b } : Account).canTransact now amount
      = ((a.canTransact now amount).1,
         { (a.canTransact now amount).2 with freezeReason := r, isActive := b }) := by
  show ((({ a with freezeReason := r, isActive := b } : Account).applyLimitResets
          now).transactDecision amount,
        ({ a with freezeReason := r, isActive := b } : Account).applyLimitResets now)
    = ((a.applyLimitResets now).transactDecision amount,
       { a.applyLimitResets now with freezeReason := r, isActive := b })
  rw [applyLimitResets_set_freeze, transactDecision_set_freeze]

/-- C9: the ledger operations canTransact, debit and credit are independent of
freezeReason and isActive: on two account states identical except in those two
fields they return identical results and apply identical balance and
limit-counter updates (the two fields are merely carried through unchanged);
in particular a frozen or deactivated account is debited and credited exactly
as an active one by the Account interface itself. -/
theorem claim_C9_ops_ignore_freeze_state (a : Account) (r : FreezeReason)
    (b : Bool) (now : SimpleDate) (amount : ℚ) :
    (({ a with freezeReason := r, isActive := b } : Account).canTransact now amount
        = ((a.canTransact now amount).1,
           { (a.canTransact now amount).2 with freezeReason := r, isActive := b })) ∧
    (({ a with freezeReason := r, isActive := b } : Account).debit now amount
        = (a.debit now amount).map
            fun p => ({ p.1 with freezeReason := r, isActive := b }, p.2)) ∧
    (({ a with freezeReason := r, isActive := b } : Account).credit amount
        = (a.credit amount).map
            fun p => ({ p.1 with freezeReason := r, isActive := b }, p.2)) := by
  refine ⟨canTransact_set_freeze a now amount r b, ?_, ?_⟩
  · rcases le_or_lt amount 0 with h | h
    · simp [Account.debit, h, Except.map]
    · simp only [Account.debit, if_neg (not_le.mpr h), canTransact_set_freeze]
      rcases hAll : (a.canTransact now amount).1.allowed <;>
        simp [hAll, Account.updateTransactionAmounts, Except.map]
  · unfold Account.credit
    split <;> rfl

/-! Claim C3: the balance floor invariant under sequences of credits and
debits. -/

/-- A ledger operation on one account: Account.credit or Account.debit. -/
inductive AccountOp
  | credit (amount : ℚ)
  | debit (now : SimpleDate) (amount : ℚ)

/-- The persisted account state after one operation: a thrown credit or debit
leaves the stored document unchanged (nothing was saved). -/
def applyOp (a : Account) : AccountOp → Account
  | .credit amount =>
    match a.credit amount with
    | .ok p => p.1
    | .error _ => a
  | .debit now amount =>
    match a.debit now amount with
    | .ok p => p.1
    | .error _ => a

/-- The persisted account state after a sequence of operations. -/
def applyOps (a : Account) (ops : List AccountOp) : Account :=
  ops.foldl applyOp a

/-- The type-specific balance floor of the specification: balance at least
minimumBalance for savings accounts, at least minus overdraftLimit for
current accounts. -/
def balanceFloorOK (a : Account) : Prop :=
  (a.accountType = AccountType.savings → a.minimumBalance ≤ a.balance) ∧
  (a.accountType = AccountType.current → -a.overdraftLimit ≤ a.balance)

theorem transactDecision_allowed_floor (x : Account) (amount : ℚ)
    (h : (x.transactDecision amount).allowed = true) :
    (x.accountType = AccountType.savings → x.minimumBalance ≤ x.balance - amount) ∧
    (x.accountType = AccountType.current → -x.overdraftLimit ≤ x.balance - amount) := by
  unfold Account.transactDecision at h
  constructor <;> intro hty <;> simp only [hty] at h <;>
    split_ifs at h with h1 h2 h3 <;> first
      | exact not_lt.mp h3
      | simp at h

theorem transactDecision_floor_deny (x : Account) (amount : ℚ)
    (hviol : (x.accountType = AccountType.savings ∧ x.balance - amount < x.minimumBalance) ∨
             (x.accountType = AccountType.current ∧ x.balance - amount < -x.overdraftLimit)) :
    (x.transactDecision amount).allowed = false := by
  unfold Account.transactDecision
  rcases hviol with ⟨hty, hlt⟩ | ⟨hty, hlt⟩ <;> simp only [hty] <;>
    split_ifs with h1 h2 h3 <;> first
      | rfl
      | exact absurd hlt h3

theorem applyOp_floor (a : Account) (op : AccountOp) (h : balanceFloorOK a) :
    balanceFloorOK (applyOp a op) := by
  rcases op with amount | ⟨now, amount⟩
  · cases hc : a.credit amount with
    | error e => simpa [applyOp, hc] using h
    | ok p =>
      simp only [applyOp, hc]
      unfold Account.credit at hc
      split_ifs at hc with hle
      rw [Except.ok.injEq] at hc
      subst hc
      refine ⟨fun hty => ?_, fun hty => ?_⟩ <;> dsimp at hty ⊢
      · have := h.1 hty
        have := not_le.mp hle
        linarith
      · have := h.2 hty
        have := not_le.mp hle
        linarith
  · cases hd : a.debit now amount with
    | error e => simpa [applyOp, hd] using h
    | ok p =>
      simp only [applyOp, hd]
      simp only [Account.debit, Account.canTransact] at hd
      split_ifs at hd with hle hallow
      rw [Except.ok.injEq] at hd
      subst hd
      have hfloor := transactDecision_allowed_floor (a.applyLimitResets now)
        amount hallow
      refine ⟨fun hty => ?_, fun hty => ?_⟩ <;>
        dsimp [Account.updateTransactionAmounts] at hty ⊢ <;>
        rw [applyLimitResets_accountType] at hty
      · have hx := hfloor.1 (by rw [applyLimitResets_accountType]; exact hty)
        linarith [hx]
      · have hx := hfloor.2 (by rw [applyLimitResets_accountType]; exact hty)
        linarith [hx]

theorem applyOps_floor (a : Account) (ops : List AccountOp)
    (h : balanceFloorOK a) : balanceFloorOK (applyOps a ops) := by
  induction ops generalizing a with
  | nil => exact h
  | cons op rest ih => exact ih _ (applyOp_floor a op h)

theorem debit_floor_violation (a : Account) (now : SimpleDate) (amount : ℚ)
    (hviol : (a.accountType = AccountType.savings ∧ a.balance - amount < a.minimumBalance) ∨
             (a.accountType = AccountType.current ∧ a.balance - amount < -a.overdraftLimit)) :
    ∃ msg, a.debit now amount = Except.error msg ∧
      applyOp a (AccountOp.debit now amount) = a := by
  by_cases hle : amount ≤ 0
  · have hdeb : a.debit now amount = Except.error "Debit amount must be positive" := by
      simp [Account.debit, hle]
    exact ⟨_, hdeb, by simp [applyOp, hdeb]⟩
  · have hviolx : ((a.applyLimitResets now).accountType = AccountType.savings ∧
        (a.applyLimitResets now).balance - amount
          < (a.applyLimitResets now).minimumBalance) ∨
        ((a.applyLimitResets now).accountType = AccountType.current ∧
        (a.applyLimitResets now).balance - amount
          < -(a.applyLimitResets now).overdraftLimit) := by
      rcases hviol with ⟨hty, hlt⟩ | ⟨hty, hlt⟩
      · exact Or.inl ⟨by rw [applyLimitResets_accountType]; exact hty,
          by rw [applyLimitResets_balance, applyLimitResets_minimumBalance]; exact hlt⟩
      · exact Or.inr ⟨by rw [applyLimitResets_accountType]; exact hty,
          by rw [applyLimitResets_balance, applyLimitResets_overdraftLimit]; exact hlt⟩
    have hdeny := transactDecision_floor_deny (a.applyLimitResets now) amount hviolx
    have hdeb : a.debit now amount = Except.error
        (((a.applyLimitResets now).transactDecision amount).reason.getD "") := by
      simp only [Account.debit, Account.canTransact]
      rw [if_neg hle]
      simp [hdeny]
    exact ⟨_, hdeb, by simp [applyOp, hdeb]⟩

/-- C3: for every account whose state satisfies its balance floor, after any
sequence of credit and debit operations a savings account still satisfies
balance at least minimumBalance and a current account balance at least minus
overdraftLimit; and any debit that would violate the floor is rejected (the
operation throws) with no mutation of the stored account. -/
theorem claim_C3_balance_floor_invariant (a : Account) (ops : List AccountOp)
    (h : balanceFloorOK a) :
    balanceFloorOK (applyOps a ops) ∧
    ∀ now amount,
      ((a.accountType = AccountType.savings ∧ a.balance - amount < a.minimumBalance) ∨
       (a.accountType = AccountType.current ∧ a.balance - amount < -a.overdraftLimit)) →
      ∃ msg, a.debit now amount = Except.error msg ∧
        applyOp a (AccountOp.debit now amount) = a :=
  ⟨applyOps_floor a ops h, fun now amount hviol =>
    debit_floor_violation a now amount hviol⟩

/-! Concrete states used by the witnesses. -/

def demoDate : SimpleDate := ⟨2024, 1, 15⟩

/-- The specification's example account: savings, balance 1000, minimum
balance 1000. -/
def demoFloorAcct : Account :=
  { accountNumber := "1000000001", accountType := .savings, balance := 1000,
    minimumBalance := 1000, overdraftLimit := 0, isActive := true,
    freezeReason := .none, dailyTransactionLimit := 50000,
    monthlyTransactionLimit := 500000, todayTransactionAmount := 0,
    monthTransactionAmount := 0, lastTransactionReset := demoDate,
    lastMonthlyReset := demoDate }

/-- Witness for C3, the specification's own example: a savings account at
balance 1000 with minimum balance 1000 keeps its floor across a debit(500)
attempt, and that debit is rejected leaving the account unchanged. -/
theorem claim_C3_witness :
    balanceFloorOK demoFloorAcct ∧
    balanceFloorOK (applyOps demoFloorAcct [AccountOp.debit demoDate 500]) ∧
    applyOp demoFloorAcct (AccountOp.debit demoDate 500) = demoFloorAcct := by
  have hfloor : balanceFloorOK demoFloorAcct := by
    norm_num [balanceFloorOK, demoFloorAcct]
  have h := claim_C3_balance_floor_invariant demoFloorAcct
    [AccountOp.debit demoDate 500] hfloor
  obtain ⟨msg, hmsg, happ⟩ := h.2 demoDate 500 (by norm_num [demoFloorAcct])
  exact ⟨hfloor, h.1, happ⟩

/-! The Transaction model (src/unnamed/part_004) and the transfer flow
(src/controllers/transactionController.js). -/

/-- Transaction model transactionType enum. -/
inductive TxType
  | transfer
  | deposit
  | withdrawal
  | fd_deposit
  | fd_maturity
  | rd_deposit
  | rd_maturity
  | interest_credit
  | fee_debit
  | penalty_debit
  | reversal
deriving DecidableEq

/-- Transaction model status enum. -/
inductive TxStatus
  | pending
  | completed
  | failed
  | reversed
deriving DecidableEq

/-- The Transaction Record fields the claims mention (part_004 schema).
Timestamps are rational day-counts, as in the RecurringDeposit model. -/
structure TxRecord where
  txType : TxType
  amount : ℚ
  status : TxStatus
  processedAt : Option ℚ := none
  failureReason : Option String := none
  fromAccountBalance : Option ℚ := none
  toAccountBalance : Option ℚ := none
deriving DecidableEq

/-- Part_004 lines 276 to 291, complete(fromBalance, toBalance): sets status
to completed, stamps processedAt, and stores whichever balance snapshots are
provided (a null argument leaves that snapshot untouched).  There is no guard
on the current status. -/
def TxRecord.complete (t : TxRecord) (fromBalance toBalance : Option ℚ)
    (now : ℚ) : TxRecord :=
  let t1 := { t with status := TxStatus.completed, processedAt := some now }
  let t2 := match fromBalance with
    | some b => { t1 with fromAccountBalance := some b }
    | none => t1
  match toBalance with
  | some b => { t2 with toAccountBalance := some b }
  | none => t2

/-- Part_004 lines 294 to 300, fail(reason): sets status to failed, stamps
processedAt and stores failureReason.  There is no guard on the current
status. -/
def TxRecord.fail (t : TxRecord) (reason : String) (now : ℚ) : TxRecord :=
  { t with status := TxStatus.failed, processedAt := some now,
           failureReason := some reason }

/-- The HTTP-level outcome of transferMoney. -/
inductive TransferResponse
  | rejected (message : String)
  | failedTransfer (message : String)
  | success (newBalance : ℚ)
deriving DecidableEq

/-- The committed (post-commit or post-abort) persistent state after a
transferMoney call, together with its response. -/
structure TransferFinal where
  fromAccount : Account
  toAccount : Account
  records : List TxRecord
  response : TransferResponse
deriving DecidableEq

/-- TransactionController.js lines 16 to 177, transferMoney, modelled at the
level of the COMMITTED store.  The session mechanics of the source determine
which writes survive each path:

* the from-account is loaded with .session(session), so its debit saves are
  part of the transaction and commit or roll back with it;
* the to-account is loaded without a session (findByAccountNumber), so its
  credit save commits immediately;
* the pending transaction record is saved with { session }, and mongoose
  then keeps that session on the document, so the later complete()/fail()
  saves also belong to the transaction.

On the success path commitTransaction persists everything.  On the failure
path (a credit failure injected by creditFails, standing for a thrown save
inside toAccount.credit after the debit applied) the code calls
transaction.fail(message) and then abortTransaction, which discards the
pending insert, the failed-status update and the staged debit, leaving the
committed store exactly as before the call.  Validation rejections before the
pending record abort the (empty) transaction: no committed change.

The lookups by account number are modelled by passing the two account
documents directly; the query filter isActive: true of the source lookups is
the isActive check below. -/
def transferMoney (nowD : SimpleDate) (nowT : ℚ) (fromAccount toAccount : Account)
    (amount : ℚ) (creditFails : Bool) : TransferFinal :=
  if amount ≤ 0 then
    ⟨fromAccount, toAccount, [],
      .rejected "Transfer amount must be greater than zero"⟩
  else if !fromAccount.isActive then
    ⟨fromAccount, toAccount, [],
      .rejected "Source account not found or inactive"⟩
  else if fromAccount.freezeReason ≠ FreezeReason.none then
    ⟨fromAccount, toAccount, [],
      .rejected "Source account is frozen. Please contact support."⟩
  else if !toAccount.isActive then
    ⟨fromAccount, toAccount, [], .rejected "Beneficiary account not found"⟩
  else if !toAccount.isActive ∨ toAccount.freezeReason ≠ FreezeReason.none then
    ⟨fromAccount, toAccount, [],
      .rejected "Beneficiary account is inactive or frozen"⟩
  else if fromAccount.accountNumber = toAccount.accountNumber then
    ⟨fromAccount, toAccount, [], .rejected "Cannot transfer to the same account"⟩
  else
    let ct := fromAccount.canTransact nowD amount
    if !ct.1.allowed then
      ⟨fromAccount, toAccount, [], .rejected (ct.1.reason.getD "")⟩
    else
      let pending : TxRecord :=
        { txType := TxType.transfer, amount := amount, status := TxStatus.pending }
      match ct.2.debit nowD amount with
      | .error msg =>
        ⟨fromAccount, toAccount, [], .failedTransfer msg⟩
      | .ok (fromDebited, _) =>
        if creditFails then
          ⟨fromAccount, toAccount, [], .failedTransfer "credit save failed"⟩
        else
          match toAccount.credit amount with
          | .error msg =>
            ⟨fromAccount, toAccount, [], .failedTransfer msg⟩
          | .ok (toCredited, _) =>
            let completed :=
              pending.complete (some fromDebited.balance) (some toCredited.balance) nowT
            ⟨fromDebited, toCredited, [completed], .success fromDebited.balance⟩

theorem debit_after_allowed (a : Account) (now : SimpleDate) (amount : ℚ)
    (hpos : 0 < amount)
    (hallow : ((a.applyLimitResets now).transactDecision amount).allowed = true) :
    ∃ a2, (a.applyLimitResets now).debit now amount = Except.ok (a2, a2.balance)
      ∧ a2.balance = a.balance - amount := by
  refine ⟨({ a.applyLimitResets now with
      balance := (a.applyLimitResets now).balance - amount
    } : Account).updateTransactionAmounts amount, ?_, ?_⟩
  · simp only [Account.debit, Account.canTransact, applyLimitResets_idem]
    rw [if_neg (not_le.mpr hpos), if_pos hallow]
  · dsimp [Account.updateTransactionAmounts]
    rw [applyLimitResets_balance]

/-- C2: for every transfer that passes validation and succeeds (positive
amount, both accounts active and unfrozen, distinct account numbers, limits
allow, no injected failure), the committed source balance decreases by exactly
the amount, the committed destination balance increases by exactly the
amount, and exactly one Transaction Record is committed for the transfer; it
has status completed and its stored fromAccountBalance and toAccountBalance
snapshots equal the post-mutation balances of the two accounts. -/
theorem claim_C2_transfer_conservation (nowD : SimpleDate) (nowT : ℚ)
    (fromAccount toAccount : Account) (amount : ℚ)
    (hpos : 0 < amount)
    (hfa : fromAccount.isActive = true)
    (hff : fromAccount.freezeReason = FreezeReason.none)
    (hta : toAccount.isActive = true)
    (htf : toAccount.freezeReason = FreezeReason.none)
    (hne : fromAccount.accountNumber ≠ toAccount.accountNumber)
    (hallow : (fromAccount.canTransact nowD amount).1.allowed = true) :
    (transferMoney nowD nowT fromAccount toAccount amount false).fromAccount.balance
      = fromAccount.balance - amount ∧
    (transferMoney nowD nowT fromAccount toAccount amount false).toAccount.balance
      = toAccount.balance + amount ∧
    ∃ rec, (transferMoney nowD nowT fromAccount toAccount amount false).records = [rec] ∧
      rec.status = TxStatus.completed ∧ rec.amount = amount ∧
      rec.fromAccountBalance = some (fromAccount.balance - amount) ∧
      rec.toAccountBalance = some (toAccount.balance + amount) := by
  have hallow' : ((fromAccount.applyLimitResets nowD).transactDecision amount).allowed
      = true := hallow
  have hcredit : toAccount.credit amount =
      Except.ok ({ toAccount with balance := toAccount.balance + amount },
        toAccount.balance + amount) := by
    unfold Account.credit
    rw [if_neg (not_le.mpr hpos)]
  obtain ⟨a2, hdeb, hbal⟩ := debit_after_allowed fromAccount nowD amount hpos hallow'
  simp only [transferMoney, Account.canTransact, if_neg (not_le.mpr hpos), hfa, hff,
    hta, htf, hne, hallow', hdeb, hcredit, Bool.not_true, ne_eq, not_true_eq_false,
    Bool.false_eq_true, or_self, not_false_eq_true, ite_true, ite_false]
  simp [TxRecord.complete, hbal]

/-- C1 (code behaviour): when the destination credit fails after the source
debit applied, the code marks the in-memory record failed but then aborts the
session that also holds the record's insert and the debit, so the committed
store keeps the source account unchanged, the destination unchanged, and NO
transaction record at all — in particular no record in status failed
survives, contradicting the claim's required final state. -/
theorem claim_C1_failed_credit_commits_nothing (nowD : SimpleDate) (nowT : ℚ)
    (fromAccount toAccount : Account) (amount : ℚ)
    (hpos : 0 < amount)
    (hfa : fromAccount.isActive = true)
    (hff : fromAccount.freezeReason = FreezeReason.none)
    (hta : toAccount.isActive = true)
    (htf : toAccount.freezeReason = FreezeReason.none)
    (hne : fromAccount.accountNumber ≠ toAccount.accountNumber)
    (hallow : (fromAccount.canTransact nowD amount).1.allowed = true) :
    transferMoney nowD nowT fromAccount toAccount amount true
      = ⟨fromAccount, toAccount, [],
          TransferResponse.failedTransfer "credit save failed"⟩ := by
  have hallow' : ((fromAccount.applyLimitResets nowD).transactDecision amount).allowed
      = true := hallow
  obtain ⟨a2, hdeb, hbal⟩ := debit_after_allowed fromAccount nowD amount hpos hallow'
  simp only [transferMoney, Account.canTransact, if_neg (not_le.mpr hpos), hfa, hff,
    hta, htf, hne, hallow', hdeb, Bool.not_true, ne_eq, not_true_eq_false,
    Bool.false_eq_true, or_self, not_false_eq_true, ite_true, ite_false]

/-- A demo savings account used by the transfer witnesses. -/
def demoSavings : Account :=
  { accountNumber := "1001234567", accountType := .savings, balance := 5000,
    minimumBalance := 1000, overdraftLimit := 0, isActive := true,
    freezeReason := .none, dailyTransactionLimit := 50000,
    monthlyTransactionLimit := 500000, todayTransactionAmount := 0,
    monthTransactionAmount := 0, lastTransactionReset := demoDate,
    lastMonthlyReset := demoDate }

/-- A demo current account used by the transfer witnesses. -/
def demoCurrent : Account :=
  { accountNumber := "2001234567", accountType := .current, balance := 100,
    minimumBalance := 0, overdraftLimit := 50000, isActive := true,
    freezeReason := .none, dailyTransactionLimit := 100000,
    monthlyTransactionLimit := 1000000, todayTransactionAmount := 0,
    monthTransactionAmount := 0, lastTransactionReset := demoDate,
    lastMonthlyReset := demoDate }

theorem demo_canTransact_allowed :
    (demoSavings.canTransact demoDate 500).1.allowed = true := by
  norm_num [Account.canTransact, Account.applyLimitResets,
    Account.transactDecision, demoSavings, demoDate, dayBefore_self,
    monthBefore_self]

/-- Witness for C2: transferring 500 from the demo savings account to the demo
current account succeeds and conserves the 500 on both sides. -/
theorem claim_C2_witness :
    (0:ℚ) < 500 ∧
    (transferMoney demoDate 0 demoSavings demoCurrent 500 false).fromAccount.balance
      = demoSavings.balance - 500 ∧
    (transferMoney demoDate 0 demoSavings demoCurrent 500 false).toAccount.balance
      = demoCurrent.balance + 500 := by
  have h := claim_C2_transfer_conservation demoDate 0 demoSavings demoCurrent 500
    (by norm_num) rfl rfl rfl rfl (by decide) demo_canTransact_allowed
  exact ⟨by norm_num, h.1, h.2.1⟩

/-- Witness for C1's code-behaviour theorem: with the same demo accounts and
an injected credit failure, the committed store is exactly the pre-transfer
store with no transaction record. -/
theorem claim_C1_witness :
    (transferMoney demoDate 0 demoSavings demoCurrent 500 true).records = [] ∧
    (transferMoney demoDate 0 demoSavings demoCurrent 500 true).fromAccount
      = demoSavings ∧
    (transferMoney demoDate 0 demoSavings demoCurrent 500 true).toAccount
      = demoCurrent := by
  have h := claim_C1_failed_credit_commits_nothing demoDate 0 demoSavings
    demoCurrent 500 (by norm_num) rfl rfl rfl rfl (by decide)
    demo_canTransact_allowed
  exact ⟨by rw [h], by rw [h], by rw [h]⟩

/-- A completed demo Transaction Record (a terminal state). -/
def demoCompletedRecord : TxRecord :=
  { txType := TxType.transfer, amount := 500, status := TxStatus.completed,
    processedAt := some 1, fromAccountBalance := some 4500,
    toAccountBalance := some 600 }

/-- C5 (code behaviour at the failing input): fail() applied to a Transaction
Record already in the terminal state completed is not rejected — it silently
overwrites status to failed and stores the new reason — and complete() applied
to that failed record overwrites it back to completed; neither method guards
on the current status. -/
theorem claim_C5_terminal_states_not_guarded :
    demoCompletedRecord.status = TxStatus.completed ∧
    (demoCompletedRecord.fail "late failure" 2).status = TxStatus.failed ∧
    (demoCompletedRecord.fail "late failure" 2).failureReason
      = some "late failure" ∧
    (demoCompletedRecord.fail "late failure" 2).processedAt = some 2 ∧
    ((demoCompletedRecord.fail "late failure" 2).complete none none 3).status
      = TxStatus.completed := by
  exact ⟨rfl, rfl, rfl, rfl, rfl⟩

/-! The Fixed Deposit maturity computation (src/models/FixedDeposit.js). -/

/-- FixedDeposit.js interestPayoutMode enum. -/
inductive PayoutMode
  | cumulative
  | monthly
  | quarterly
  | half_yearly
  | yearly
deriving DecidableEq

/-- FixedDeposit.js lines 268 to 278, calculateMaturityAmount(principal, rate,
tenure, payoutMode): monthly compound interest, rounded, for the cumulative
payout mode; the unchanged principal otherwise. -/
def calculateMaturityAmount (principal rate : ℚ) (tenure : ℕ)
    (payoutMode : PayoutMode) : ℚ :=
  let monthlyRate := rate / (12 * 100)
  if payoutMode = PayoutMode.cumulative then
    (round (principal * (1 + monthlyRate) ^ tenure) : ℤ)
  else
    principal

/-- The formula claim C8 states: round(principal × (1 + rate/(12×100))^tenure)
for the cumulative payout mode, the unchanged principal for every other payout
mode. -/
def fdMaturityClaimed (principal rate : ℚ) (tenure : ℕ)
    (payoutMode : PayoutMode) : ℚ :=
  if payoutMode = PayoutMode.cumulative then
    (round (principal * (1 + rate / (12 * 100)) ^ tenure) : ℤ)
  else principal

/-- C8: for every Fixed Deposit the maturity amount computed at creation
equals round(principal × (1 + rate/(12×100))^tenure) with monthly compounding
over the tenure when the payout mode is cumulative, and equals the principal
unchanged for every non-cumulative payout mode; the specification's example
(principal 100000, rate 7.5, tenure 36, cumulative) instantiates the same
formula written with 0.075/12. -/
theorem claim_C8_fd_maturity_formula (principal rate : ℚ) (tenure : ℕ)
    (payoutMode : PayoutMode) :
    calculateMaturityAmount principal rate tenure payoutMode
      = fdMaturityClaimed principal rate tenure payoutMode ∧
    calculateMaturityAmount 100000 (15/2) 36 PayoutMode.cumulative
      = (round ((100000 : ℚ) * (1 + (75/1000) / 12) ^ 36) : ℤ) := by
  refine ⟨rfl, ?_⟩
  have harg : (1 + (15/2 : ℚ) / (12 * 100)) = 1 + (75/1000 : ℚ) / 12 := by
    norm_num
  simp only [calculateMaturityAmount]
  rw [if_pos trivial, harg]

/-! The Recurring Deposit engine (src/unnamed/part_005).  Timestamps are
rational day-counts; advancing nextDueDate by one calendar month
(setMonth(+1)) is passed in as a function parameter advanceMonth, since no
verified property depends on the advanced value. -/

/-- RecurringDeposit status enum. -/
inductive RDStatus
  | active
  | matured
  | closed
  | defaulted
deriving DecidableEq

/-- The RecurringDeposit document fields used by installment and maturity
processing (part_005 schema). -/
structure RD where
  monthlyAmount : ℚ
  tenure : ℕ
  totalDeposited : ℚ
  maturityAmount : ℚ
  nextDueDate : ℚ
  status : RDStatus
  installmentsPaid : ℕ
  penaltyAmount : ℚ
  autoDebitFailureCount : ℕ
  autoDebitLastFailureDate : Option ℚ := none
  autoDebitLastFailureReason : Option String := none
  maturityProcessedDate : Option ℚ := none
  maturityTotalInterestEarned : Option ℚ := none
deriving DecidableEq

/-- Part_005 lines 186 to 188, the isOverdue virtual: status active and the
clock past nextDueDate. -/
def RD.isOverdue (rd : RD) (nowT : ℚ) : Bool :=
  decide (rd.status = RDStatus.active ∧ rd.nextDueDate < nowT)

/-- Part_005 lines 316 to 323: the overdue penalty of processInstallment,
min(overdueDays × 10, monthlyAmount × 0.1), where overdueDays is the floor of
the day difference between paymentDate and nextDueDate; zero when not
overdue.  The float literal 0.1 of the source is the exact 1/10 here. -/
def installmentPenalty (rd : RD) (nowT paymentDate : ℚ) : ℚ :=
  if rd.isOverdue nowT then
    min ((⌊paymentDate - rd.nextDueDate⌋ : ℚ) * 10) (rd.monthlyAmount * (1/10))
  else 0

/-- RDInstallment.js status enum. -/
inductive InstallmentStatus
  | pending
  | paid
  | overdue
  | defaulted
deriving DecidableEq

/-- The RDInstallment record written by processInstallment. -/
structure InstallmentRec where
  installmentNumber : ℕ
  amount : ℚ
  penaltyAmount : ℚ
  totalAmount : ℚ
  dueDate : ℚ
  paidDate : ℚ
  status : InstallmentStatus
deriving DecidableEq

/-- The committed store and outcome of RD.processMaturity. -/
structure RDMaturityResult where
  rd : RD
  account : Account
  txs : List TxRecord
  ok : Bool
  errMsg : Option String := none
  maturityAmountPaid : Option ℚ := none
  totalInterestEarned : Option ℚ := none
deriving DecidableEq

/-- Part_005 lines 400 to 454, processMaturity(): requires all installments
paid; actual payout is maturityAmount minus the accumulated penaltyAmount;
writes a completed rd_maturity Transaction Record (saved before the credit),
credits the source account, then sets status matured and records the total
interest earned (payout minus totalDeposited).  A failing credit (non-positive
payout) leaves the already-saved transaction record persisted and the RD document
unsaved. -/
def RD.processMaturity (rd : RD) (acc : Account) (nowT : ℚ) : RDMaturityResult :=
  if rd.installmentsPaid < rd.tenure then
    { rd := rd, account := acc, txs := [], ok := false,
      errMsg := some "RD has not completed all installments" }
  else
    let actualMaturityAmount := rd.maturityAmount - rd.penaltyAmount
    let totalInterestEarned := actualMaturityAmount - rd.totalDeposited
    let tx : TxRecord :=
      { txType := TxType.rd_maturity, amount := actualMaturityAmount,
        status := TxStatus.completed, processedAt := some nowT }
    match acc.credit actualMaturityAmount with
    | .error e =>
      { rd := rd, account := acc, txs := [tx], ok := false, errMsg := some e }
    | .ok (accCredited, _) =>
      let rdMatured :=
        { rd with
            status := RDStatus.matured,
            maturityProcessedDate := some nowT,
            maturityTotalInterestEarned := some totalInterestEarned }
      { rd := rdMatured, account := accCredited, txs := [tx], ok := true,
        maturityAmountPaid := some actualMaturityAmount,
        totalInterestEarned := some totalInterestEarned }

/-- The committed store and outcome of RD.processInstallment. -/
structure RDInstallmentResult where
  rd : RD
  account : Account
  txs : List TxRecord
  installments : List InstallmentRec
  ok : Bool
  errMsg : Option String := none
  amountPaid : Option ℚ := none
  penaltyCharged : Option ℚ := none
deriving DecidableEq

/-- Part_005 lines 296 to 397, processInstallment(paymentDate): requires
status active; adds the overdue penalty to the monthly amount; runs
canTransact on the source account and, on denial, persists the auto-debit
failure on the RD and throws (the account is untouched); on success debits
the account (the canTransact reset side effect included, as the debit re-runs
it on the same document), writes a completed rd_deposit Transaction Record
and a paid Installment record, updates the RD counters, resets the failure
count, advances nextDueDate by one month, and — when installmentsPaid has
reached tenure — immediately invokes processMaturity instead of persisting
as still-active.  When processMaturity throws, its exception propagates
before the RD document save, so the committed RD is the pre-call one while
the debit, both transaction records and the installment record stay
committed. -/
def RD.processInstallment (rd : RD) (acc : Account) (advanceMonth : ℚ → ℚ)
    (nowD : SimpleDate) (nowT paymentDate : ℚ) : RDInstallmentResult :=
  if rd.status ≠ RDStatus.active then
    { rd := rd, account := acc, txs := [], installments := [], ok := false,
      errMsg := some "RD is not active" }
  else
    let penaltyAmount := installmentPenalty rd nowT paymentDate
    let totalAmount := rd.monthlyAmount + penaltyAmount
    let ct := acc.canTransact nowD totalAmount
    if !ct.1.allowed then
      let rdFailed :=
        { rd with
            autoDebitFailureCount := rd.autoDebitFailureCount + 1,
            autoDebitLastFailureDate := some paymentDate,
            autoDebitLastFailureReason := ct.1.reason }
      { rd := rdFailed,
        account := acc, txs := [], installments := [], ok := false,
        errMsg := some ("Payment failed: " ++ ct.1.reason.getD "") }
    else
      match ct.2.debit nowD totalAmount with
      | .error e =>
        { rd := rd, account := acc, txs := [], installments := [], ok := false,
          errMsg := some e }
      | .ok (accDebited, _) =>
        let tx : TxRecord :=
          { txType := TxType.rd_deposit, amount := totalAmount,
            status := TxStatus.completed, processedAt := some paymentDate }
        let inst : InstallmentRec :=
          { installmentNumber := rd.installmentsPaid + 1,
            amount := rd.monthlyAmount, penaltyAmount := penaltyAmount,
            totalAmount := totalAmount, dueDate := rd.nextDueDate,
            paidDate := paymentDate, status := InstallmentStatus.paid }
        let rd1 :=
          { rd with
            totalDeposited := rd.totalDeposited + rd.monthlyAmount,
            installmentsPaid := rd.installmentsPaid + 1,
            penaltyAmount := rd.penaltyAmount + penaltyAmount,
            autoDebitFailureCount := 0,
            nextDueDate := advanceMonth rd.nextDueDate }
        if rd1.tenure ≤ rd1.installmentsPaid then
          let m := rd1.processMaturity accDebited nowT
          if m.ok then
            { rd := m.rd, account := m.account, txs := tx :: m.txs,
              installments := [inst], ok := true,
              amountPaid := some totalAmount,
              penaltyCharged := some penaltyAmount }
          else
            { rd := rd, account := accDebited, txs := tx :: m.txs,
              installments := [inst], ok := false, errMsg := m.errMsg }
        else
          { rd := rd1, account := accDebited, txs := [tx],
            installments := [inst], ok := true,
            amountPaid := some totalAmount,
            penaltyCharged := some penaltyAmount }

theorem credit_ok_state (a : Account) (amount : ℚ) (a2 : Account) (b : ℚ)
    (h : a.credit amount = Except.ok (a2, b)) :
    a2 = { a with balance := a.balance + amount } := by
  unfold Account.credit at h
  split_ifs at h with hle
  rw [Except.ok.injEq, Prod.mk.injEq] at h
  exact h.1.symm

theorem debit_ok_state (a : Account) (now : SimpleDate) (amount : ℚ)
    (a2 : Account) (b : ℚ) (h : a.debit now amount = Except.ok (a2, b)) :
    a2.balance = a.balance - amount := by
  simp only [Account.debit, Account.canTransact] at h
  split_ifs at h with hle hallow
  rw [Except.ok.injEq, Prod.mk.injEq] at h
  obtain ⟨h1, -⟩ := h
  subst h1
  dsimp [Account.updateTransactionAmounts]
  rw [applyLimitResets_balance]

theorem installmentPenalty_of_active (rd : RD) (nowT paymentDate : ℚ)
    (hactive : rd.status = RDStatus.active) :
    installmentPenalty rd nowT paymentDate
      = if rd.nextDueDate < nowT
        then min ((⌊paymentDate - rd.nextDueDate⌋ : ℚ) * 10)
          (rd.monthlyAmount * (1/10))
        else 0 := by
  simp [installmentPenalty, RD.isOverdue, hactive]

/-- C6: for an active Recurring Deposit, when a successful processInstallment
brings installmentsPaid up to tenure, the RD transitions to status matured
within that same call (maturity processing is invoked instead of persisting as
still-active), the source account is credited exactly maturityAmount minus the
accumulated penaltyAmount (this installment's penalty included), and the
recorded total interest earned equals that payout minus the final
totalDeposited. -/
theorem claim_C6_rd_maturity_same_call (rd : RD) (acc : Account)
    (advanceMonth : ℚ → ℚ) (nowD : SimpleDate) (nowT paymentDate : ℚ)
    (hactive : rd.status = RDStatus.active)
    (hlast : rd.installmentsPaid + 1 = rd.tenure)
    (hok : (rd.processInstallment acc advanceMonth nowD nowT paymentDate).ok = true) :
    (rd.processInstallment acc advanceMonth nowD nowT paymentDate).rd.status
        = RDStatus.matured ∧
    (rd.processInstallment acc advanceMonth nowD nowT paymentDate).account.balance
        = acc.balance - (rd.monthlyAmount + installmentPenalty rd nowT paymentDate)
          + (rd.maturityAmount
             - (rd.penaltyAmount + installmentPenalty rd nowT paymentDate)) ∧
    (rd.processInstallment acc advanceMonth nowD nowT
        paymentDate).rd.maturityTotalInterestEarned
      = some ((rd.maturityAmount
            - (rd.penaltyAmount + installmentPenalty rd nowT paymentDate))
          - (rd.totalDeposited + rd.monthlyAmount)) ∧
    ∃ txd txm,
      (rd.processInstallment acc advanceMonth nowD nowT paymentDate).txs
        = [txd, txm] ∧
      txm.txType = TxType.rd_maturity ∧
      txm.amount = rd.maturityAmount
        - (rd.penaltyAmount + installmentPenalty rd nowT paymentDate) := by
  have hne : ¬ rd.status ≠ RDStatus.active := by simp [hactive]
  have hge : rd.tenure ≤ rd.installmentsPaid + 1 := le_of_eq hlast.symm
  have hnlt : ¬ (rd.installmentsPaid + 1 < rd.tenure) := by omega
  cases hallow : (acc.canTransact nowD
      (rd.monthlyAmount + installmentPenalty rd nowT paymentDate)).1.allowed with
  | false =>
    exfalso
    simp [RD.processInstallment, hne, hallow] at hok
  | true =>
    cases hdeb : (acc.canTransact nowD
        (rd.monthlyAmount + installmentPenalty rd nowT paymentDate)).2.debit nowD
        (rd.monthlyAmount + installmentPenalty rd nowT paymentDate) with
    | error e =>
      exfalso
      simp [RD.processInstallment, hne, hallow, hdeb] at hok
    | ok p =>
      obtain ⟨accD, bal⟩ := p
      have hbalD : accD.balance = acc.balance
          - (rd.monthlyAmount + installmentPenalty rd nowT paymentDate) := by
        have h1 := debit_ok_state _ nowD _ accD bal hdeb
        rw [h1]
        show (acc.applyLimitResets nowD).balance - _ = _
        rw [applyLimitResets_balance]
      cases hcred : accD.credit (rd.maturityAmount
          - (rd.penaltyAmount + installmentPenalty rd nowT paymentDate)) with
      | error e2 =>
        exfalso
        simp [RD.processInstallment, RD.processMaturity, hne, hallow, hdeb,
          hge, hnlt, hcred] at hok
      | ok q =>
        obtain ⟨accC, bal2⟩ := q
        have haccC := credit_ok_state accD _ accC bal2 hcred
        subst haccC
        refine ⟨?_, ?_, ?_, ?_⟩ <;>
          simp [RD.processInstallment, RD.processMaturity, hne, hallow, hdeb,
            hge, hnlt, hcred, hbalD]
        exact ⟨_, _, ⟨rfl, rfl⟩, rfl, rfl⟩

/-- C7: processInstallment on an active RD charges a penalty of
min(overdueDays × 10, monthlyAmount × 0.10) when the payment is overdue (now
past nextDueDate) and zero otherwise, and the total amount debited from the
source account equals monthlyAmount + penalty: the reported penalty and
amountPaid, the written rd_deposit Transaction Record's amount, and the
balance change of the debit all equal these values. -/
theorem claim_C7_rd_installment_penalty (rd : RD) (acc : Account)
    (advanceMonth : ℚ → ℚ) (nowD : SimpleDate) (nowT paymentDate : ℚ)
    (hactive : rd.status = RDStatus.active)
    (hok : (rd.processInstallment acc advanceMonth nowD nowT paymentDate).ok = true) :
    (rd.processInstallment acc advanceMonth nowD nowT paymentDate).penaltyCharged
      = some (if rd.nextDueDate < nowT
          then min ((⌊paymentDate - rd.nextDueDate⌋ : ℚ) * 10)
            (rd.monthlyAmount * (10/100))
          else 0) ∧
    (rd.processInstallment acc advanceMonth nowD nowT paymentDate).amountPaid
      = some (rd.monthlyAmount + installmentPenalty rd nowT paymentDate) ∧
    (∃ txd rest,
      (rd.processInstallment acc advanceMonth nowD nowT paymentDate).txs
        = txd :: rest ∧
      txd.txType = TxType.rd_deposit ∧
      txd.amount = rd.monthlyAmount + installmentPenalty rd nowT paymentDate) ∧
    ∃ accDebited bal,
      (acc.canTransact nowD
          (rd.monthlyAmount + installmentPenalty rd nowT paymentDate)).2.debit nowD
          (rd.monthlyAmount + installmentPenalty rd nowT paymentDate)
        = Except.ok (accDebited, bal) ∧
      accDebited.balance
        = acc.balance - (rd.monthlyAmount + installmentPenalty rd nowT paymentDate) := by
  have hne : ¬ rd.status ≠ RDStatus.active := by simp [hactive]
  have hpenclaim :
      (if rd.nextDueDate < nowT
        then min ((⌊paymentDate - rd.nextDueDate⌋ : ℚ) * 10)
          (rd.monthlyAmount * (10/100))
        else 0)
      = installmentPenalty rd nowT paymentDate := by
    rw [installmentPenalty_of_active rd nowT paymentDate hactive]
    have hpen10 : rd.monthlyAmount * (10/100 : ℚ) = rd.monthlyAmount * (1/10) := by
      ring
    rw [hpen10]
  cases hallow : (acc.canTransact nowD
      (rd.monthlyAmount + installmentPenalty rd nowT paymentDate)).1.allowed with
  | false =>
    exfalso
    simp [RD.processInstallment, hne, hallow] at hok
  | true =>
    cases hdeb : (acc.canTransact nowD
        (rd.monthlyAmount + installmentPenalty rd nowT paymentDate)).2.debit nowD
        (rd.monthlyAmount + installmentPenalty rd nowT paymentDate) with
    | error e =>
      exfalso
      simp [RD.processInstallment, hne, hallow, hdeb] at hok
    | ok p =>
      obtain ⟨accD, bal⟩ := p
      have hbalD : accD.balance = acc.balance
          - (rd.monthlyAmount + installmentPenalty rd nowT paymentDate) := by
        have h1 := debit_ok_state _ nowD _ accD bal hdeb
        rw [h1]
        show (acc.applyLimitResets nowD).balance - _ = _
        rw [applyLimitResets_balance]
      by_cases hcase : rd.tenure ≤ rd.installmentsPaid + 1
      · have hnlt : ¬ (rd.installmentsPaid + 1 < rd.tenure) := by omega
        cases hcred : accD.credit (rd.maturityAmount
            - (rd.penaltyAmount + installmentPenalty rd nowT paymentDate)) with
        | error e2 =>
          exfalso
          simp [RD.processInstallment, RD.processMaturity, hne, hallow, hdeb,
            hcase, hnlt, hcred] at hok
        | ok q =>
          obtain ⟨accC, bal2⟩ := q
          refine ⟨?_, ?_, ?_, ⟨accD, bal, rfl, hbalD⟩⟩ <;>
            simp [RD.processInstallment, RD.processMaturity, hne, hallow, hdeb,
              hcase, hnlt, hcred, hpenclaim]
      · refine ⟨?_, ?_, ?_, ⟨accD, bal, rfl, hbalD⟩⟩ <;>
          simp [RD.processInstallment, hne, hallow, hdeb, hcase, hpenclaim]

/-- A demo RD one installment away from maturity. -/
def demoRD6 : RD :=
  { monthlyAmount := 1000, tenure := 2, totalDeposited := 1000,
    maturityAmount := 2100, nextDueDate := 10, status := RDStatus.active,
    installmentsPaid := 1, penaltyAmount := 0, autoDebitFailureCount := 0 }

/-- A demo RD matching the specification's penalty example: monthly amount
1000, five days overdue at payment time. -/
def demoRD7 : RD :=
  { monthlyAmount := 1000, tenure := 12, totalDeposited := 0,
    maturityAmount := 12500, nextDueDate := 0, status := RDStatus.active,
    installmentsPaid := 0, penaltyAmount := 0, autoDebitFailureCount := 0 }

/-- Witness for C6: paying the final installment of the demo RD matures it in
the same call and credits the source account with the payout. -/
theorem claim_C6_witness :
    demoRD6.status = RDStatus.active ∧
    demoRD6.installmentsPaid + 1 = demoRD6.tenure ∧
    (demoRD6.processInstallment demoSavings (fun t => t + 30) demoDate 5 5).ok
      = true ∧
    (demoRD6.processInstallment demoSavings (fun t => t + 30) demoDate 5 5).rd.status
      = RDStatus.matured ∧
    (demoRD6.processInstallment demoSavings
        (fun t => t + 30) demoDate 5 5).account.balance
      = demoSavings.balance
        - (demoRD6.monthlyAmount + installmentPenalty demoRD6 5 5)
        + (demoRD6.maturityAmount
           - (demoRD6.penaltyAmount + installmentPenalty demoRD6 5 5)) := by
  have hok : (demoRD6.processInstallment demoSavings
      (fun t => t + 30) demoDate 5 5).ok = true := by
    norm_num [RD.processInstallment, RD.processMaturity, installmentPenalty,
      RD.isOverdue, Account.canTransact, Account.applyLimitResets,
      Account.transactDecision, Account.debit, Account.credit,
      Account.updateTransactionAmounts, demoRD6, demoSavings, demoDate,
      dayBefore_self, monthBefore_self]
  have h := claim_C6_rd_maturity_same_call demoRD6 demoSavings (fun t => t + 30)
    demoDate 5 5 rfl rfl hok
  exact ⟨rfl, rfl, hok, h.1, h.2.1⟩

/-- Witness for C7, the specification's own example: monthly amount 1000,
overdue by five days, gives penalty 50 and total debit 1050. -/
theorem claim_C7_witness :
    demoRD7.status = RDStatus.active ∧
    (demoRD7.processInstallment demoSavings (fun t => t + 30) demoDate 5 5).ok
      = true ∧
    (demoRD7.processInstallment demoSavings
        (fun t => t + 30) demoDate 5 5).penaltyCharged = some 50 ∧
    (demoRD7.processInstallment demoSavings
        (fun t => t + 30) demoDate 5 5).amountPaid = some 1050 := by
  have hok : (demoRD7.processInstallment demoSavings
      (fun t => t + 30) demoDate 5 5).ok = true := by
    norm_num [RD.processInstallment, RD.processMaturity, installmentPenalty,
      RD.isOverdue, Account.canTransact, Account.applyLimitResets,
      Account.transactDecision, Account.debit, Account.credit,
      Account.updateTransactionAmounts, demoRD7, demoSavings, demoDate,
      dayBefore_self, monthBefore_self]
  have h := claim_C7_rd_installment_penalty demoRD7 demoSavings (fun t => t + 30)
    demoDate 5 5 rfl hok
  refine ⟨rfl, hok, ?_, ?_⟩
  · rw [h.1]
    norm_num [demoRD7]
  · rw [h.2.1]
    norm_num [demoRD7, installmentPenalty, RD.isOverdue]
